import Mathlib

/-!
# Transport layer of libfranka: `src/network.cpp`

A shallow embedding of `franka::Network` (constructor, `checkTcpConnection`,
`tcpReceiveIntoBuffer`) and the properties of its error classification and of
its exact-size receive loop.

The Poco sockets are an external library.  They enter the embedding as a
parameter: a `StreamSocket σ` gives, for a socket state `σ`, the outcome of
`poll` and of `receiveBytes`.  Every function records the socket calls it
issues, so that statements about what is requested from the socket can be made.
-/

set_option linter.dupNamespace false

namespace Franka

/-! ## Machine integers -/

/-- Octet of the destination buffer (`uint8_t`). -/
abbrev Byte := Fin 256

/-- Modulus of `size_t` arithmetic (64-bit target). -/
def SIZE_MOD : Nat := 2 ^ 64

/-- Largest value of a 32-bit `int`. -/
def INT_MAX : Nat := 2147483647

/-- Narrowing `static_cast<int>(x)` of an unsigned word: the value modulo `2^32`,
read in two's complement. -/
def static_cast_int (x : Nat) : Int :=
  if x % 2 ^ 32 < 2 ^ 31 then ((x % 2 ^ 32 : Nat) : Int)
  else ((x % 2 ^ 32 : Nat) : Int) - 2 ^ 32

/-- Result of an operation on `long` (64 bits): the value modulo `2^64`, read in
two's complement. -/
def wrap_long (x : Int) : Int :=
  if x % 2 ^ 64 < 2 ^ 63 then x % 2 ^ 64 else x % 2 ^ 64 - 2 ^ 64

/-- Product `a * b` of two `long` values, as in `1000l * tcp_timeout.count()`. -/
def long_mul (a b : Int) : Int := wrap_long (a * b)

/-- Flag `MSG_PEEK` of `<sys/socket.h>`. -/
def MSG_PEEK : Int := 2

/-- Mode `Poco::Net::Socket::SELECT_READ`. -/
def SELECT_READ : Int := 1

/-- Protocol level `IPPROTO_TCP`. -/
def IPPROTO_TCP : Int := 6

/-- Socket option `TCP_KEEPIDLE`. -/
def TCP_KEEPIDLE : Int := 4

/-- Socket option `TCP_KEEPINTVL`. -/
def TCP_KEEPINTVL : Int := 5

/-- Socket option `TCP_KEEPCNT`. -/
def TCP_KEEPCNT : Int := 6

/-! ## Exceptions -/

/-- The part of the Poco exception hierarchy the handlers of `network.cpp`
distinguish: `Poco::Net::NetException`, `Poco::TimeoutException`, and any other
`Poco::Exception`.  Each carries its `what()` text. -/
inductive PocoException
  | NetException (text : String)
  | TimeoutException (text : String)
  | Exception (text : String)
  deriving DecidableEq, Repr

/-- Text returned by `e.what()`. -/
def PocoException.what : PocoException → String
  | .NetException t => t
  | .TimeoutException t => t
  | .Exception t => t

/-- What a function of `Network` can leave with: a Poco exception that no handler
caught, or one of the two exceptions of libfranka.

Modelled from the spec: `NetworkException` and `ProtocolException` are declared
in headers that are not part of the sources at hand; they are the two error
kinds of the transport (connection error, protocol error) and are not Poco
exceptions, so a `catch (const Poco::Exception&)` does not intercept them. -/
inductive Thrown
  | poco (e : PocoException)
  | NetworkException (msg : String)
  | ProtocolException (msg : String)
  deriving DecidableEq, Repr

/-- Recognises a `NetworkException`. -/
def Thrown.isNetworkException : Thrown → Bool
  | .NetworkException _ => true
  | _ => false

/-- Recognises a `ProtocolException`. -/
def Thrown.isProtocolException : Thrown → Bool
  | .ProtocolException _ => true
  | _ => false

/-! ## The socket as a parameter -/

/-- Outcome of one `receiveBytes` call: a non-negative count together with the
bytes stored at the destination (`rv = data.length`), a negative return value
(`rv = -(m+1)`), or a Poco exception. -/
inductive ReadOutcome
  | bytes (data : List Byte)
  | negative (m : Nat)
  | throws (e : PocoException)
  deriving DecidableEq, Repr

/-- A stream socket over a state `σ`: `poll s timeout mode` and
`receiveBytes s length flags` give the outcome and the next state. -/
structure StreamSocket (σ : Type) where
  poll : σ → Int → Int → Except PocoException Bool × σ
  receiveBytes : σ → Int → Int → ReadOutcome × σ

/-- A call issued on the stream socket.  For `receiveBytes`, `dest` is the offset
of the destination within the buffer of the caller. -/
inductive TcpCall
  | poll (timeout : Int) (mode : Int)
  | receiveBytes (dest : Nat) (length : Int) (flags : Int)
  deriving DecidableEq, Repr

/-- How far a call has come: it returned, it left with an exception, or it is
still inside its loop after the allotted number of reads. -/
inductive Status
  | returned
  | threw (e : Thrown)
  | running
  deriving DecidableEq, Repr

/-! ## `Network::tcpReceiveIntoBuffer` -/

/-- Memory behind `uint8_t* buffer`, by offset. -/
abbrev Buffer := Nat → Byte

/-- Effect of a read that stores `data` from offset `dest` on. -/
def store (buffer : Buffer) (dest : Nat) (data : List Byte) : Buffer :=
  fun i => if dest ≤ i then (data[i - dest]?).getD (buffer i) else buffer i

/-- State in which the `try` block of `tcpReceiveIntoBuffer` was left. -/
structure RecvResult (σ : Type) where
  status : Status
  bytes_read : Nat
  buffer : Buffer
  socket : σ
  calls : List TcpCall
  delivered : List Byte

/-- The `while (bytes_read < read_size)` loop with its body, started at a given
`bytes_read`.  The first argument bounds the number of reads; when it is used up
and the loop condition still holds the status is `running`. -/
def receiveLoop {σ : Type} (sock : StreamSocket σ) (read_size : Nat) :
    Nat → σ → Nat → Buffer → RecvResult σ
  | 0, s, bytes_read, buffer =>
    if bytes_read < read_size then ⟨.running, bytes_read, buffer, s, [], []⟩
    else ⟨.returned, bytes_read, buffer, s, [], []⟩
  | fuel + 1, s, bytes_read, buffer =>
    if bytes_read < read_size then
      let bytes_left := (read_size - bytes_read) % SIZE_MOD
      let length := static_cast_int bytes_left
      let call := TcpCall.receiveBytes bytes_read length 0
      match sock.receiveBytes s length 0 with
      | (.throws e, s1) => ⟨.threw (.poco e), bytes_read, buffer, s1, [call], []⟩
      | (.negative _, s1) =>
        ⟨.threw (.NetworkException "libfranka: server closed connection"),
          bytes_read, buffer, s1, [call], []⟩
      | (.bytes data, s1) =>
        let r := receiveLoop sock read_size fuel s1
          ((bytes_read + data.length) % SIZE_MOD) (store buffer bytes_read data)
        { r with calls := call :: r.calls, delivered := data ++ r.delivered }
    else ⟨.returned, bytes_read, buffer, s, [], []⟩

/-- The function `Network::tcpReceiveIntoBuffer(buffer, read_size)`: the loop from
`bytes_read = 0`, then the two handlers.  A `Poco::TimeoutException` becomes a
`ProtocolException` when `bytes_read != 0` and a `NetworkException` otherwise;
any other Poco exception becomes a `NetworkException`. -/
def tcpReceiveIntoBuffer {σ : Type} (sock : StreamSocket σ) (fuel : Nat) (s : σ)
    (buffer : Buffer) (read_size : Nat) : RecvResult σ :=
  let r := receiveLoop sock read_size fuel s 0 buffer
  match r.status with
  | .threw (.poco (.TimeoutException _)) =>
    if r.bytes_read ≠ 0 then
      { r with status := .threw (.ProtocolException "libfranka: incorrect object size") }
    else
      { r with status := .threw (.NetworkException "libfranka: FRANKA connection timeout") }
  | .threw (.poco _) =>
    { r with status := .threw (.NetworkException "libfranka: FRANKA connection closed") }
  | _ => r

/-! ## `Network::checkTcpConnection` -/

/-- Result of `checkTcpConnection`: normal return or exception, the socket state
it leaves and the socket calls it issued. -/
structure CheckResult (σ : Type) where
  result : Except Thrown Unit
  socket : σ
  calls : List TcpCall

/-- Body of `checkTcpConnection`, before the handler of its function try block. -/
def checkTcpConnectionBody {σ : Type} (sock : StreamSocket σ) (s : σ) : CheckResult σ :=
  match sock.poll s 0 SELECT_READ with
  | (.error e, s1) => ⟨.error (.poco e), s1, [.poll 0 SELECT_READ]⟩
  | (.ok false, s1) => ⟨.ok (), s1, [.poll 0 SELECT_READ]⟩
  | (.ok true, s1) =>
    match sock.receiveBytes s1 1 MSG_PEEK with
    | (.throws e, s2) =>
      ⟨.error (.poco e), s2, [.poll 0 SELECT_READ, .receiveBytes 0 1 MSG_PEEK]⟩
    | (.negative _, s2) =>
      ⟨.ok (), s2, [.poll 0 SELECT_READ, .receiveBytes 0 1 MSG_PEEK]⟩
    | (.bytes data, s2) =>
      if data.length = 0 then
        ⟨.error (.NetworkException "libfranka: server closed connection"), s2,
          [.poll 0 SELECT_READ, .receiveBytes 0 1 MSG_PEEK]⟩
      else ⟨.ok (), s2, [.poll 0 SELECT_READ, .receiveBytes 0 1 MSG_PEEK]⟩

/-- The function `Network::checkTcpConnection()`: the body, and the handler
`catch (const Poco::Exception& e)` that rethrows as a `NetworkException`. -/
def checkTcpConnection {σ : Type} (sock : StreamSocket σ) (s : σ) : CheckResult σ :=
  let r := checkTcpConnectionBody sock s
  match r.result with
  | .error (.poco e) => { r with result := .error (.NetworkException ("libfranka: " ++ e.what)) }
  | _ => r

/-- Socket state after `n` successive calls of `checkTcpConnection`. -/
def checkTcpConnectionTimes {σ : Type} (sock : StreamSocket σ) : Nat → σ → σ
  | 0, s => s
  | n + 1, s => checkTcpConnectionTimes sock n (checkTcpConnection sock s).socket

/-! ## `Network::Network` -/

/-- A call the constructor issues on `tcp_socket_` or on `udp_socket_`.  Time
spans are in microseconds, as `Poco::Timespan` takes them; the constructor gets
them in milliseconds (`std::chrono::milliseconds`, a 64-bit count). -/
inductive SetupCall
  | tcp_connect (address : String) (port : Nat) (timeout : Int)
  | tcp_setBlocking (flag : Bool)
  | tcp_setSendTimeout (timeout : Int)
  | tcp_setReceiveTimeout (timeout : Int)
  | tcp_setKeepAlive (flag : Bool)
  | tcp_setOption (level : Int) (option : Int) (value : Int)
  | udp_setReceiveTimeout (timeout : Int)
  | udp_bind (address : String) (port : Nat)
  deriving DecidableEq, Repr

/-- The statements of the `try` block of the constructor, in source order. -/
def Network.steps (franka_address : String) (franka_port : Nat)
    (tcp_timeout udp_timeout : Int) : List SetupCall :=
  let poco_timeout := long_mul 1000 tcp_timeout
  [ .tcp_connect franka_address franka_port poco_timeout,
    .tcp_setBlocking true,
    .tcp_setSendTimeout poco_timeout,
    .tcp_setReceiveTimeout poco_timeout,
    .tcp_setKeepAlive true,
    .tcp_setOption IPPROTO_TCP TCP_KEEPIDLE 1,
    .tcp_setOption IPPROTO_TCP TCP_KEEPCNT 3,
    .tcp_setOption IPPROTO_TCP TCP_KEEPINTVL 1,
    .udp_setReceiveTimeout (long_mul 1000 udp_timeout),
    .udp_bind "0.0.0.0" 0 ]

/-- Sequential execution of statements that may throw: the calls issued, and the
exception of the first call that failed, if any.  `env` is the outcome the
sockets give to each call. -/
def runSteps (env : SetupCall → Except PocoException Unit) :
    List SetupCall → List SetupCall × Option PocoException
  | [] => ([], none)
  | c :: cs =>
    match env c with
    | .error e => ([c], some e)
    | .ok () => let r := runSteps env cs; (c :: r.1, r.2)

/-- A constructed `Network`, represented by the calls that configured its two
sockets. -/
structure Network where
  configured : List SetupCall
  deriving DecidableEq, Repr

/-- Result of running the constructor: the object or the exception, with the
socket calls that were issued. -/
structure ConstructResult where
  result : Except Thrown Network
  calls : List SetupCall

/-- The constructor `Network::Network`: the `try` block and its three handlers,
tried in source order. -/
def Network.Network (env : SetupCall → Except PocoException Unit)
    (franka_address : String) (franka_port : Nat) (tcp_timeout udp_timeout : Int) :
    ConstructResult :=
  let r := runSteps env (Network.steps franka_address franka_port tcp_timeout udp_timeout)
  match r.2 with
  | some (.NetException t) =>
    ⟨.error (.NetworkException ("libfranka: FRANKA connection error: " ++ t)), r.1⟩
  | some (.TimeoutException _) =>
    ⟨.error (.NetworkException "libfranka: FRANKA connection timeout"), r.1⟩
  | some (.Exception t) =>
    ⟨.error (.NetworkException ("libfranka: " ++ t)), r.1⟩
  | none => ⟨.ok ⟨r.1⟩, r.1⟩

/-! ## Sockets to run the functions on -/

/-- A socket that plays back a list of read outcomes, whatever length is asked
for; when the list is used up the peer is silent and a read times out.  A read
with `MSG_PEEK` leaves the list as it is. -/
def scriptSocket : StreamSocket (List ReadOutcome) where
  poll s _ _ := (.ok (!s.isEmpty), s)
  receiveBytes s _ flags :=
    match s with
    | [] => (.throws (.TimeoutException "Timeout"), [])
    | o :: rest => if flags = MSG_PEEK then (o, o :: rest) else (o, rest)

/-- An in-memory receive queue: the bytes that arrived and were not consumed, and
whether the peer has closed its side after them. -/
structure Wire where
  queue : List Byte
  closed : Bool
  deriving DecidableEq, Repr

/-- A stream socket over an in-memory queue.  A read hands out at most `length`
bytes from the front of the queue and removes them unless `MSG_PEEK` is set; on
an empty queue it returns 0 when the peer has closed and times out otherwise. -/
def wireSocket : StreamSocket Wire where
  poll w _ _ := (.ok (!w.queue.isEmpty || w.closed), w)
  receiveBytes w length flags :=
    if w.queue.isEmpty then
      if w.closed then (.bytes [], w) else (.throws (.TimeoutException "Timeout"), w)
    else if flags = MSG_PEEK then (.bytes (w.queue.take length.toNat), w)
    else (.bytes (w.queue.take length.toNat), { w with queue := w.queue.drop length.toNat })

/-- The in-memory socket of a peer that stays connected: the state is the queue
alone. -/
def queueSocket : StreamSocket (List Byte) where
  poll q timeout mode := ((wireSocket.poll ⟨q, false⟩ timeout mode).1, q)
  receiveBytes q length flags :=
    ((wireSocket.receiveBytes ⟨q, false⟩ length flags).1,
      (wireSocket.receiveBytes ⟨q, false⟩ length flags).2.queue)

/-- A buffer of zeros. -/
def zeroBuffer : Buffer := fun _ => 0

/-- Outcome of every socket call of the constructor when nothing fails. -/
def allSucceed : SetupCall → Except PocoException Unit := fun _ => .ok ()

/-- Outcomes in which exactly the call `c` fails, with the exception `e`. -/
def failAt (c : SetupCall) (e : PocoException) : SetupCall → Except PocoException Unit :=
  fun d => if d = c then .error e else .ok ()

/-! ## Properties of sockets used as hypotheses -/

/-- The contract of a read into a buffer, for a `length` that is an `int`: the
count returned fits an `int` and, for a non-negative `length`, is at most
`length`. -/
def HonoursLength {σ : Type} (sock : StreamSocket σ) : Prop :=
  ∀ s length data s1, length ≤ (INT_MAX : Int) →
    sock.receiveBytes s length 0 = (.bytes data, s1) →
    data.length ≤ INT_MAX ∧ (0 ≤ length → (data.length : Int) ≤ length)

/-- Every read that returns a count returns `r` with `1 ≤ r ≤ length`. -/
def MakesProgress {σ : Type} (sock : StreamSocket σ) : Prop :=
  ∀ s length data s1, 0 < length → sock.receiveBytes s length 0 = (.bytes data, s1) →
    1 ≤ data.length ∧ (data.length : Int) ≤ length

/-- Neither `poll` nor a read with `MSG_PEEK` changes the state of the socket.

Modelled from the spec: the socket library is not part of the sources; a peek
read "inspects pending bytes without removing them from the receive queue", and
a poll only reports readability. -/
def PeekKeepsState {σ : Type} (sock : StreamSocket σ) : Prop :=
  (∀ s timeout mode, (sock.poll s timeout mode).2 = s) ∧
  (∀ s length, (sock.receiveBytes s length MSG_PEEK).2 = s)

/-- Total number of bytes in a sequence of chunks. -/
def totalLength (chunks : List (List Byte)) : Nat := (chunks.map List.length).sum

/-- A socket on which every call fails with a `NetException`. -/
def resetSocket : StreamSocket Unit where
  poll _ _ _ := (.error (.NetException "Connection reset by peer"), ())
  receiveBytes _ _ _ := (.throws (.NetException "Connection reset by peer"), ())

/-- Destination offset of a `receiveBytes` call (0 for a `poll`). -/
def TcpCall.dest : TcpCall → Nat
  | .receiveBytes d _ _ => d
  | .poll _ _ => 0

end Franka

namespace Franka

/-! ## The receive loop: what holds on every run -/

theorem store_nil (buffer : Buffer) (dest : Nat) : store buffer dest [] = buffer := by
  funext i
  simp [store]

theorem store_append (buffer : Buffer) (dest : Nat) (d1 d2 : List Byte) :
    store (store buffer dest d1) (dest + d1.length) d2 = store buffer dest (d1 ++ d2) := by
  funext i
  unfold store
  by_cases h1 : dest ≤ i
  · by_cases h2 : dest + d1.length ≤ i
    · have h3 : d1.length ≤ i - dest := by omega
      have h4 : i - (dest + d1.length) = i - dest - d1.length := by omega
      have h5 : d1[i - dest]? = none := List.getElem?_eq_none h3
      simp [h1, h2, List.getElem?_append_right h3, h4, h5]
    · have h3 : i - dest < d1.length := by omega
      simp [h1, h2, List.getElem?_append_left h3]
  · have h2 : ¬ dest + d1.length ≤ i := by omega
    simp [h1, h2]

theorem store_get (buffer : Buffer) (data : List Byte) (i : Nat) (h : i < data.length) :
    data[i]? = some (store buffer 0 data i) := by
  simp [store, List.getElem?_eq_getElem h]

theorem static_cast_int_le (x : Nat) : static_cast_int x ≤ (INT_MAX : Int) := by
  unfold static_cast_int INT_MAX
  split_ifs with h <;> omega

/-- A count that honours the length asked for never takes `bytes_read` past
`read_size`, whatever the narrowing did to the length. -/
theorem read_fits (N b n : Nat) (hN : N < SIZE_MOD) (hb : b < N) (h1 : n ≤ INT_MAX)
    (h2 : 0 ≤ static_cast_int ((N - b) % SIZE_MOD) →
      (n : Int) ≤ static_cast_int ((N - b) % SIZE_MOD)) : b + n ≤ N := by
  unfold SIZE_MOD at hN h2
  unfold INT_MAX at h1
  have h3 : (N - b) % 2 ^ 64 = N - b := Nat.mod_eq_of_lt (by omega)
  rw [h3] at h2
  unfold static_cast_int at h2
  split_ifs at h2 with h
  · have h4 := h2 (by omega)
    omega
  · omega

theorem receiveLoop_invariant {σ : Type} (sock : StreamSocket σ) (hc : HonoursLength sock)
    (N : Nat) (hN : N < SIZE_MOD) (fuel : Nat) :
    ∀ (s : σ) (b : Nat) (buffer : Buffer), b ≤ N →
      (receiveLoop sock N fuel s b buffer).bytes_read
          = b + (receiveLoop sock N fuel s b buffer).delivered.length ∧
      (receiveLoop sock N fuel s b buffer).bytes_read ≤ N ∧
      ((receiveLoop sock N fuel s b buffer).status = .returned →
        (receiveLoop sock N fuel s b buffer).bytes_read = N) ∧
      (receiveLoop sock N fuel s b buffer).buffer
          = store buffer b (receiveLoop sock N fuel s b buffer).delivered := by
  induction fuel with
  | zero =>
    intro s b buffer hb
    unfold receiveLoop
    split_ifs with h
    · simp [store_nil, hb]
    · simp [store_nil, hb]; omega
  | succ fuel ih =>
    intro s b buffer hb
    unfold receiveLoop
    split_ifs with h
    · simp only []
      split
      · simp [store_nil, hb]
      · simp [store_nil, hb]
      · rename_i data s1 heq
        have hfit := hc s _ data s1 (static_cast_int_le _) heq
        have hle : b + data.length ≤ N := read_fits N b data.length hN h hfit.1 hfit.2
        have hmod : (b + data.length) % SIZE_MOD = b + data.length :=
          Nat.mod_eq_of_lt (by omega)
        have := ih s1 (b + data.length) (store buffer b data) hle
        rw [hmod]
        obtain ⟨h1, h2, h3, h4⟩ := this
        refine ⟨?_, h2, h3, ?_⟩
        · simp only [List.length_append]; omega
        · simp only []
          rw [h4, store_append]
    · simp [store_nil, hb]; omega

/-- The handlers of `tcpReceiveIntoBuffer` change the status only. -/
theorem tcpReceiveIntoBuffer_fields {σ : Type} (sock : StreamSocket σ) (fuel : Nat) (s : σ)
    (buffer : Buffer) (N : Nat) :
    (tcpReceiveIntoBuffer sock fuel s buffer N).bytes_read
        = (receiveLoop sock N fuel s 0 buffer).bytes_read ∧
    (tcpReceiveIntoBuffer sock fuel s buffer N).buffer
        = (receiveLoop sock N fuel s 0 buffer).buffer ∧
    (tcpReceiveIntoBuffer sock fuel s buffer N).calls
        = (receiveLoop sock N fuel s 0 buffer).calls ∧
    (tcpReceiveIntoBuffer sock fuel s buffer N).delivered
        = (receiveLoop sock N fuel s 0 buffer).delivered ∧
    (tcpReceiveIntoBuffer sock fuel s buffer N).socket
        = (receiveLoop sock N fuel s 0 buffer).socket := by
  unfold tcpReceiveIntoBuffer
  simp only []
  split
  · split <;> simp
  · simp
  · simp

/-- The status of `tcpReceiveIntoBuffer`, from the status in which the `try`
block was left. -/
theorem tcpReceiveIntoBuffer_status {σ : Type} (sock : StreamSocket σ) (fuel : Nat) (s : σ)
    (buffer : Buffer) (N : Nat) :
    (tcpReceiveIntoBuffer sock fuel s buffer N).status =
      match (receiveLoop sock N fuel s 0 buffer).status with
      | .threw (.poco (.TimeoutException _)) =>
        if (receiveLoop sock N fuel s 0 buffer).bytes_read ≠ 0 then
          .threw (.ProtocolException "libfranka: incorrect object size")
        else .threw (.NetworkException "libfranka: FRANKA connection timeout")
      | .threw (.poco _) => .threw (.NetworkException "libfranka: FRANKA connection closed")
      | st => st := by
  unfold tcpReceiveIntoBuffer
  simp only []
  split
  · split <;> simp_all
  · rfl
  · rfl

/-- Inside the `try` block only two kinds of exception arise: a Poco exception of
the socket, and the `NetworkException` thrown on a negative return value. -/
theorem receiveLoop_status {σ : Type} (sock : StreamSocket σ) (N : Nat) (fuel : Nat) :
    ∀ (s : σ) (b : Nat) (buffer : Buffer),
      (receiveLoop sock N fuel s b buffer).status = .returned ∨
      (receiveLoop sock N fuel s b buffer).status = .running ∨
      (∃ e, (receiveLoop sock N fuel s b buffer).status = .threw (.poco e)) ∨
      (receiveLoop sock N fuel s b buffer).status
        = .threw (.NetworkException "libfranka: server closed connection") := by
  induction fuel with
  | zero =>
    intro s b buffer
    unfold receiveLoop
    split_ifs <;> simp
  | succ fuel ih =>
    intro s b buffer
    unfold receiveLoop
    split_ifs with h
    · simp only []
      split
      · simp
      · simp
      · rename_i data s1 heq
        exact ih s1 _ _
    · simp

/-- The loop is still running only when every allotted read was issued and
returned a count, and fewer than `read_size` bytes have been accumulated. -/
theorem receiveLoop_running {σ : Type} (sock : StreamSocket σ) (N : Nat) (fuel : Nat) :
    ∀ (s : σ) (b : Nat) (buffer : Buffer),
      (receiveLoop sock N fuel s b buffer).status = .running →
      (receiveLoop sock N fuel s b buffer).calls.length = fuel ∧
      (receiveLoop sock N fuel s b buffer).bytes_read < N := by
  induction fuel with
  | zero =>
    intro s b buffer
    unfold receiveLoop
    split_ifs with h
    · intro _
      exact ⟨rfl, h⟩
    · intro h1
      simp at h1
  | succ fuel ih =>
    intro s b buffer
    unfold receiveLoop
    split_ifs with h
    · simp only []
      split
      · intro h1
        simp at h1
      · intro h1
        simp at h1
      · intro h1
        obtain ⟨h2, h3⟩ := ih _ _ _ h1
        exact ⟨by simp [h2], h3⟩
    · intro h1
      simp at h1

/-- The in-memory socket honours the length it is asked for. -/
theorem wireSocket_honoursLength : HonoursLength wireSocket := by
  intro w length data s1 hlen h
  simp only [wireSocket] at h
  have hINT : (INT_MAX : Int) = 2147483647 := by simp [INT_MAX]
  split_ifs at h with h1 h2 h3
  · simp only [Prod.mk.injEq, ReadOutcome.bytes.injEq] at h
    rw [← h.1]
    simp [INT_MAX]
  · simp at h
  · simp at h3
    simp [MSG_PEEK] at h3
  · simp only [Prod.mk.injEq, ReadOutcome.bytes.injEq] at h
    rw [← h.1]
    simp only [List.length_take]
    constructor
    · unfold INT_MAX at *
      omega
    · intro h0
      omega

/-! ## One iteration of the loop -/

theorem receiveLoop_throws {σ : Type} (sock : StreamSocket σ) (N fuel : Nat) (s s1 : σ)
    (b : Nat) (buffer : Buffer) (e : PocoException) (hb : b < N)
    (h : sock.receiveBytes s (static_cast_int ((N - b) % SIZE_MOD)) 0 = (.throws e, s1)) :
    receiveLoop sock N (fuel + 1) s b buffer
      = ⟨.threw (.poco e), b, buffer, s1,
          [.receiveBytes b (static_cast_int ((N - b) % SIZE_MOD)) 0], []⟩ := by
  conv_lhs => unfold receiveLoop
  simp only [hb, if_true]
  rw [h]

theorem receiveLoop_negative {σ : Type} (sock : StreamSocket σ) (N fuel : Nat) (s s1 : σ)
    (b : Nat) (buffer : Buffer) (m : Nat) (hb : b < N)
    (h : sock.receiveBytes s (static_cast_int ((N - b) % SIZE_MOD)) 0 = (.negative m, s1)) :
    receiveLoop sock N (fuel + 1) s b buffer
      = ⟨.threw (.NetworkException "libfranka: server closed connection"), b, buffer, s1,
          [.receiveBytes b (static_cast_int ((N - b) % SIZE_MOD)) 0], []⟩ := by
  conv_lhs => unfold receiveLoop
  simp only [hb, if_true]
  rw [h]

theorem receiveLoop_bytes {σ : Type} (sock : StreamSocket σ) (N fuel : Nat) (s s1 : σ)
    (b : Nat) (buffer : Buffer) (data : List Byte) (hb : b < N)
    (h : sock.receiveBytes s (static_cast_int ((N - b) % SIZE_MOD)) 0 = (.bytes data, s1)) :
    receiveLoop sock N (fuel + 1) s b buffer
      = { receiveLoop sock N fuel s1 ((b + data.length) % SIZE_MOD) (store buffer b data) with
          calls := .receiveBytes b (static_cast_int ((N - b) % SIZE_MOD)) 0 ::
            (receiveLoop sock N fuel s1 ((b + data.length) % SIZE_MOD)
              (store buffer b data)).calls,
          delivered := data ++
            (receiveLoop sock N fuel s1 ((b + data.length) % SIZE_MOD)
              (store buffer b data)).delivered } := by
  conv_lhs => unfold receiveLoop
  simp only [hb, if_true]
  rw [h]

theorem receiveLoop_done {σ : Type} (sock : StreamSocket σ) (N fuel : Nat) (s : σ)
    (b : Nat) (buffer : Buffer) (hb : ¬ b < N) :
    receiveLoop sock N fuel s b buffer = ⟨.returned, b, buffer, s, [], []⟩ := by
  cases fuel with
  | zero => unfold receiveLoop; simp [hb]
  | succ n => unfold receiveLoop; simp [hb]

theorem scriptSocket_read (o : ReadOutcome) (rest : List ReadOutcome) (length : Int) :
    scriptSocket.receiveBytes (o :: rest) length 0 = (o, rest) := by
  simp [scriptSocket, MSG_PEEK]

/-! ## Reads that deliver a given sequence of chunks -/

/-- Playing back chunks that together stay below `read_size` keeps the loop
going: after them the loop stands at `bytes_read = b + total`, in front of the
rest of the script. -/
theorem receiveLoop_chunks (N : Nat) (hN : N < SIZE_MOD) (rest : List ReadOutcome) (fuel : Nat)
    (chunks : List (List Byte)) :
    ∀ (b : Nat) (buffer : Buffer), b + totalLength chunks < N →
      ∃ buffer1,
        (receiveLoop scriptSocket N (chunks.length + fuel)
            (chunks.map ReadOutcome.bytes ++ rest) b buffer).status
          = (receiveLoop scriptSocket N fuel rest (b + totalLength chunks) buffer1).status ∧
        (receiveLoop scriptSocket N (chunks.length + fuel)
            (chunks.map ReadOutcome.bytes ++ rest) b buffer).bytes_read
          = (receiveLoop scriptSocket N fuel rest (b + totalLength chunks) buffer1).bytes_read := by
  induction chunks with
  | nil =>
    intro b buffer _
    exact ⟨buffer, by simp [totalLength], by simp [totalLength]⟩
  | cons c cs ih =>
    intro b buffer hb
    have hsum : totalLength (c :: cs) = c.length + totalLength cs := by
      simp [totalLength]
    rw [hsum] at hb
    have hlt : b < N := by omega
    have hmod : (b + c.length) % SIZE_MOD = b + c.length := Nat.mod_eq_of_lt (by omega)
    obtain ⟨buffer1, h1, h2⟩ := ih (b + c.length) (store buffer b c) (by omega)
    refine ⟨buffer1, ?_, ?_⟩
    · have : (c :: cs).length + fuel = (cs.length + fuel) + 1 := by simp; omega
      rw [this, hsum, ← Nat.add_assoc, ← h1, List.map_cons, List.cons_append,
        receiveLoop_bytes scriptSocket N _ _ _ b buffer c hlt (scriptSocket_read _ _ _), hmod]
    · have : (c :: cs).length + fuel = (cs.length + fuel) + 1 := by simp; omega
      rw [this, hsum, ← Nat.add_assoc, ← h2, List.map_cons, List.cons_append,
        receiveLoop_bytes scriptSocket N _ _ _ b buffer c hlt (scriptSocket_read _ _ _), hmod]

/-- With `read_size = 1` and a peer that has closed, every read returns 0 and the
loop goes on: it is still running after any number of reads, at
`bytes_read = 0`, with nothing delivered. -/
theorem receiveLoop_closed_peer (fuel : Nat) :
    ∀ (buffer : Buffer),
      (receiveLoop wireSocket 1 fuel ⟨[], true⟩ 0 buffer).status = .running ∧
      (receiveLoop wireSocket 1 fuel ⟨[], true⟩ 0 buffer).bytes_read = 0 ∧
      (receiveLoop wireSocket 1 fuel ⟨[], true⟩ 0 buffer).calls.length = fuel ∧
      (receiveLoop wireSocket 1 fuel ⟨[], true⟩ 0 buffer).delivered = [] := by
  induction fuel with
  | zero => intro buffer; simp [receiveLoop]
  | succ n ih =>
    intro buffer
    have hread : wireSocket.receiveBytes ⟨[], true⟩ (static_cast_int ((1 - 0) % SIZE_MOD)) 0
        = (.bytes [], ⟨[], true⟩) := by simp [wireSocket]
    rw [receiveLoop_bytes wireSocket 1 n _ _ 0 buffer [] (by decide) hread]
    obtain ⟨h1, h2, h3, h4⟩ := ih (store buffer 0 [])
    have hz : (0 + ([] : List Byte).length) % SIZE_MOD = 0 := by simp
    rw [hz]
    exact ⟨h1, h2, by simp [h3], by simp [h4]⟩

/-- With `read_size = 2^32` the length passed is 0, so a socket with data queued
hands out nothing and the loop goes on: it is still running after any number of
reads, at `bytes_read = 0`, each read being issued with length 0. -/
theorem receiveLoop_zero_length (fuel : Nat) :
    ∀ (buffer : Buffer),
      (receiveLoop queueSocket 4294967296 fuel [1] 0 buffer).status = .running ∧
      (receiveLoop queueSocket 4294967296 fuel [1] 0 buffer).bytes_read = 0 ∧
      (receiveLoop queueSocket 4294967296 fuel [1] 0 buffer).calls
        = List.replicate fuel (.receiveBytes 0 0 0) ∧
      (receiveLoop queueSocket 4294967296 fuel [1] 0 buffer).delivered = [] := by
  induction fuel with
  | zero => intro buffer; simp [receiveLoop]
  | succ n ih =>
    intro buffer
    have hlen : static_cast_int ((4294967296 - 0) % SIZE_MOD) = 0 := by decide
    have hread : queueSocket.receiveBytes [1]
        (static_cast_int ((4294967296 - 0) % SIZE_MOD)) 0 = (.bytes [], [1]) := by
      rw [hlen]
      decide
    rw [receiveLoop_bytes queueSocket 4294967296 n _ _ 0 buffer [] (by decide) hread, hlen]
    obtain ⟨h1, h2, h3, h4⟩ := ih (store buffer 0 [])
    have hz : (0 + ([] : List Byte).length) % SIZE_MOD = 0 := by simp
    rw [hz]
    exact ⟨h1, h2, by simp [h3, List.replicate_succ], by simp [h4]⟩

/-- Claim C1, evaluated where it fails.  With `N = 1` and a peer that has closed
(every read returns 0), and with `N = 2^32` and a byte queued (every read is
issued with length 0), `tcpReceiveIntoBuffer(buffer, N)` neither returns nor
raises, however many reads are carried out: it stays in its loop with nothing
delivered.  Both sockets honour the length they are asked for. -/
theorem tcpReceiveIntoBuffer_neither_returns_nor_raises (fuel : Nat) :
    ((tcpReceiveIntoBuffer wireSocket fuel ⟨[], true⟩ zeroBuffer 1).status = .running ∧
      (tcpReceiveIntoBuffer wireSocket fuel ⟨[], true⟩ zeroBuffer 1).status ≠ .returned ∧
      (∀ e, (tcpReceiveIntoBuffer wireSocket fuel ⟨[], true⟩ zeroBuffer 1).status ≠ .threw e) ∧
      (tcpReceiveIntoBuffer wireSocket fuel ⟨[], true⟩ zeroBuffer 1).delivered = []) ∧
    ((tcpReceiveIntoBuffer queueSocket fuel [1] zeroBuffer 4294967296).status = .running ∧
      (tcpReceiveIntoBuffer queueSocket fuel [1] zeroBuffer 4294967296).status ≠ .returned ∧
      (∀ e, (tcpReceiveIntoBuffer queueSocket fuel [1] zeroBuffer 4294967296).status
        ≠ .threw e) ∧
      (tcpReceiveIntoBuffer queueSocket fuel [1] zeroBuffer 4294967296).calls
        = List.replicate fuel (.receiveBytes 0 0 0) ∧
      (tcpReceiveIntoBuffer queueSocket fuel [1] zeroBuffer 4294967296).delivered = []) := by
  constructor
  · obtain ⟨-, -, -, f4, -⟩ := tcpReceiveIntoBuffer_fields wireSocket fuel ⟨[], true⟩ zeroBuffer 1
    have hst := tcpReceiveIntoBuffer_status wireSocket fuel ⟨[], true⟩ zeroBuffer 1
    obtain ⟨h1, -, -, h4⟩ := receiveLoop_closed_peer fuel zeroBuffer
    rw [h1] at hst
    refine ⟨hst, ?_, ?_, by rw [f4, h4]⟩
    · rw [hst]; simp
    · intro e; rw [hst]; simp
  · obtain ⟨-, -, f3, f4, -⟩ :=
      tcpReceiveIntoBuffer_fields queueSocket fuel [1] zeroBuffer 4294967296
    have hst := tcpReceiveIntoBuffer_status queueSocket fuel [1] zeroBuffer 4294967296
    obtain ⟨h1, -, h3, h4⟩ := receiveLoop_zero_length fuel zeroBuffer
    rw [h1] at hst
    refine ⟨hst, ?_, ?_, by rw [f3, h3], by rw [f4, h4]⟩
    · rw [hst]; simp
    · intro e; rw [hst]; simp

/-- Claim C2, evaluated where it fails: with `read_size = 1` and a peer that has
closed, so that every read returns 0, `tcpReceiveIntoBuffer` raises nothing;
after any number of reads it is still in its loop with `bytes_read = 0`, having
issued every read it was allotted.  Likewise with `read_size = 3` after two
bytes have been delivered: the read at offset 2 is repeated.  And when, after
one byte, a read returns 0 and the next one times out, the call ends with a
`ProtocolException`. -/
theorem tcpReceiveIntoBuffer_zero_read_continues (fuel : Nat) :
    ((tcpReceiveIntoBuffer wireSocket fuel ⟨[], true⟩ zeroBuffer 1).status = .running ∧
      (tcpReceiveIntoBuffer wireSocket fuel ⟨[], true⟩ zeroBuffer 1).bytes_read = 0 ∧
      (tcpReceiveIntoBuffer wireSocket fuel ⟨[], true⟩ zeroBuffer 1).calls.length = fuel) ∧
    ((tcpReceiveIntoBuffer wireSocket 6 ⟨[1, 2], true⟩ zeroBuffer 3).status = .running ∧
      (tcpReceiveIntoBuffer wireSocket 6 ⟨[1, 2], true⟩ zeroBuffer 3).bytes_read = 2 ∧
      (tcpReceiveIntoBuffer wireSocket 6 ⟨[1, 2], true⟩ zeroBuffer 3).calls
        = [.receiveBytes 0 3 0, .receiveBytes 2 1 0, .receiveBytes 2 1 0,
            .receiveBytes 2 1 0, .receiveBytes 2 1 0, .receiveBytes 2 1 0]) ∧
    (tcpReceiveIntoBuffer scriptSocket 3
        [.bytes [1], .bytes [], .throws (.TimeoutException "Timeout")] zeroBuffer 3).status
      = .threw (.ProtocolException "libfranka: incorrect object size") := by
  refine ⟨?_, by decide, by decide⟩
  obtain ⟨f1, -, f3, -, -⟩ := tcpReceiveIntoBuffer_fields wireSocket fuel ⟨[], true⟩ zeroBuffer 1
  have hst := tcpReceiveIntoBuffer_status wireSocket fuel ⟨[], true⟩ zeroBuffer 1
  obtain ⟨h1, h2, h3, -⟩ := receiveLoop_closed_peer fuel zeroBuffer
  rw [h1] at hst
  exact ⟨hst, by rw [f1, h2], by rw [f3, h3]⟩

/-- After chunks of `k < N` bytes in total, a read with a negative return value
raises the `NetworkException` "server closed connection" at once. -/
theorem tcpReceiveIntoBuffer_negative_read (N k m : Nat) (chunks : List (List Byte))
    (rest : List ReadOutcome) (fuel : Nat) (buffer : Buffer)
    (hkN : k < N) (hN : N < SIZE_MOD) (hsum : totalLength chunks = k) :
    (tcpReceiveIntoBuffer scriptSocket (chunks.length + (fuel + 1))
        (chunks.map ReadOutcome.bytes ++ .negative m :: rest) buffer N).status
      = .threw (.NetworkException "libfranka: server closed connection") := by
  have hst := tcpReceiveIntoBuffer_status scriptSocket (chunks.length + (fuel + 1))
    (chunks.map ReadOutcome.bytes ++ .negative m :: rest) buffer N
  obtain ⟨buffer1, h1, -⟩ := receiveLoop_chunks N hN (.negative m :: rest) (fuel + 1) chunks 0
    buffer (by omega)
  have h3 : (receiveLoop scriptSocket N (fuel + 1) (.negative m :: rest)
      (0 + totalLength chunks) buffer1).status
      = .threw (.NetworkException "libfranka: server closed connection") := by
    rw [receiveLoop_negative scriptSocket N _ _ _ _ buffer1 m (by omega)
      (scriptSocket_read _ _ _)]
  rw [h1, h3] at hst
  exact hst

/-- Claim C3.  For every `N` and `k` with `0 < k < N`: when the reads of one
`tcpReceiveIntoBuffer(buffer, N)` call have delivered `k` bytes in total and the
next read times out, the call raises the `ProtocolException` "incorrect object
size". -/
theorem tcpReceiveIntoBuffer_timeout_mid_frame (N k : Nat) (chunks : List (List Byte))
    (t : String) (rest : List ReadOutcome) (fuel : Nat) (buffer : Buffer)
    (hk : 0 < k) (hkN : k < N) (hN : N < SIZE_MOD) (hsum : totalLength chunks = k) :
    (tcpReceiveIntoBuffer scriptSocket (chunks.length + (fuel + 1))
        (chunks.map ReadOutcome.bytes ++ .throws (.TimeoutException t) :: rest) buffer N).status
      = .threw (.ProtocolException "libfranka: incorrect object size") := by
  have hst := tcpReceiveIntoBuffer_status scriptSocket (chunks.length + (fuel + 1))
    (chunks.map ReadOutcome.bytes ++ .throws (.TimeoutException t) :: rest) buffer N
  obtain ⟨buffer1, h1, h2⟩ := receiveLoop_chunks N hN (.throws (.TimeoutException t) :: rest)
    (fuel + 1) chunks 0 buffer (by omega)
  have hlt : 0 + totalLength chunks < N := by omega
  have h3 : (receiveLoop scriptSocket N (fuel + 1) (.throws (.TimeoutException t) :: rest)
      (0 + totalLength chunks) buffer1).status = .threw (.poco (.TimeoutException t)) := by
    rw [receiveLoop_throws scriptSocket N _ _ _ _ buffer1 _ hlt (scriptSocket_read _ _ _)]
  have h4 : (receiveLoop scriptSocket N (fuel + 1) (.throws (.TimeoutException t) :: rest)
      (0 + totalLength chunks) buffer1).bytes_read = 0 + totalLength chunks := by
    rw [receiveLoop_throws scriptSocket N _ _ _ _ buffer1 _ hlt (scriptSocket_read _ _ _)]
  rw [h1, h3] at hst
  rw [h2, h4] at hst
  have hne : totalLength chunks ≠ 0 := by omega
  simpa [hne] using hst

/-- Instance of C3: two reads deliver 1 + 2 of 5 bytes, the third times out. -/
theorem tcpReceiveIntoBuffer_timeout_mid_frame_witness :
    (tcpReceiveIntoBuffer scriptSocket ([[1], [2, 3]].length + (0 + 1))
        ([[1], [2, 3]].map ReadOutcome.bytes ++ .throws (.TimeoutException "Timeout") :: [])
        zeroBuffer 5).status
      = .threw (.ProtocolException "libfranka: incorrect object size") :=
  tcpReceiveIntoBuffer_timeout_mid_frame 5 3 [[1], [2, 3]] "Timeout" [] 0 zeroBuffer
    (by decide) (by decide) (by decide) (by decide)

/-- Claim C4.  For every `N > 0`: when the first read of
`tcpReceiveIntoBuffer(buffer, N)` times out, so that `bytes_read = 0`, the call
raises the `NetworkException` "connection timeout", not a `ProtocolException`. -/
theorem tcpReceiveIntoBuffer_timeout_at_start {σ : Type} (sock : StreamSocket σ) (s : σ)
    (t : String) (fuel : Nat) (buffer : Buffer) (N : Nat) (hpos : 0 < N)
    (hfirst : ∀ length, (sock.receiveBytes s length 0).1 = .throws (.TimeoutException t)) :
    (tcpReceiveIntoBuffer sock (fuel + 1) s buffer N).status
        = .threw (.NetworkException "libfranka: FRANKA connection timeout") ∧
    (tcpReceiveIntoBuffer sock (fuel + 1) s buffer N).bytes_read = 0 := by
  obtain ⟨f1, -, -, -, -⟩ := tcpReceiveIntoBuffer_fields sock (fuel + 1) s buffer N
  have hst := tcpReceiveIntoBuffer_status sock (fuel + 1) s buffer N
  have h3 : (receiveLoop sock N (fuel + 1) s 0 buffer).status
        = .threw (.poco (.TimeoutException t)) ∧
      (receiveLoop sock N (fuel + 1) s 0 buffer).bytes_read = 0 := by
    unfold receiveLoop
    simp only [hpos, if_true]
    have h := hfirst (static_cast_int ((N - 0) % SIZE_MOD))
    split
    · rename_i e s1 heq
      rw [heq] at h
      simp only [ReadOutcome.throws.injEq] at h
      rw [h]
      exact ⟨rfl, rfl⟩
    · rename_i m s1 heq
      rw [heq] at h
      simp at h
    · rename_i data s1 heq
      rw [heq] at h
      simp at h
  rw [h3.1] at hst
  rw [h3.2] at hst
  rw [f1, h3.2]
  exact ⟨by simpa using hst, rfl⟩

/-- Instance of C4: a silent peer, four bytes requested. -/
theorem tcpReceiveIntoBuffer_timeout_at_start_witness :
    (tcpReceiveIntoBuffer scriptSocket (0 + 1) [] zeroBuffer 4).status
        = .threw (.NetworkException "libfranka: FRANKA connection timeout") ∧
    (tcpReceiveIntoBuffer scriptSocket (0 + 1) [] zeroBuffer 4).bytes_read = 0 :=
  tcpReceiveIntoBuffer_timeout_at_start scriptSocket [] "Timeout" 0 zeroBuffer 4 (by decide)
    (fun _ => rfl)

/-! ## Classification of errors -/

/-- The handler of `checkTcpConnection` changes the result only. -/
theorem checkTcpConnection_fields {σ : Type} (sock : StreamSocket σ) (s : σ) :
    (checkTcpConnection sock s).socket = (checkTcpConnectionBody sock s).socket ∧
    (checkTcpConnection sock s).calls = (checkTcpConnectionBody sock s).calls := by
  unfold checkTcpConnection
  simp only []
  split <;> simp

/-- Claim C6.  `checkTcpConnection` returns normally when the zero-wait poll
reports the channel not readable, and then issues no read; when the channel is
readable it issues one peek of 1 byte, returns normally if the peek returns a
non-zero count, and raises the `NetworkException` "server closed connection" if
the peek returns 0; an exception of the poll or of the peek is raised as a
`NetworkException`.  Hence, when neither raises, it raises exactly when the
channel is readable and the peek returns 0. -/
theorem checkTcpConnection_classification {σ : Type} (sock : StreamSocket σ) (s : σ) :
    (∀ s1, sock.poll s 0 SELECT_READ = (.ok false, s1) →
      (checkTcpConnection sock s).result = .ok () ∧
      (checkTcpConnection sock s).calls = [.poll 0 SELECT_READ]) ∧
    (∀ s1 out s2, sock.poll s 0 SELECT_READ = (.ok true, s1) →
      sock.receiveBytes s1 1 MSG_PEEK = (out, s2) →
      (checkTcpConnection sock s).calls = [.poll 0 SELECT_READ, .receiveBytes 0 1 MSG_PEEK] ∧
      ((∃ data, out = .bytes data ∧ data.length ≠ 0) ∨ (∃ m, out = .negative m) →
        (checkTcpConnection sock s).result = .ok ()) ∧
      (out = .bytes [] → (checkTcpConnection sock s).result
        = .error (.NetworkException "libfranka: server closed connection")) ∧
      (∀ e, out = .throws e → (checkTcpConnection sock s).result
        = .error (.NetworkException ("libfranka: " ++ e.what)))) ∧
    (∀ e s1, sock.poll s 0 SELECT_READ = (.error e, s1) →
      (checkTcpConnection sock s).result
        = .error (.NetworkException ("libfranka: " ++ e.what)) ∧
      (checkTcpConnection sock s).calls = [.poll 0 SELECT_READ]) ∧
    ((∀ e s1, sock.poll s 0 SELECT_READ ≠ (.error e, s1)) →
      (∀ s1 e s2, sock.poll s 0 SELECT_READ = (.ok true, s1) →
        sock.receiveBytes s1 1 MSG_PEEK ≠ (.throws e, s2)) →
      ((checkTcpConnection sock s).result ≠ .ok () ↔
        ∃ s1 s2, sock.poll s 0 SELECT_READ = (.ok true, s1) ∧
          sock.receiveBytes s1 1 MSG_PEEK = (.bytes [], s2))) := by
  rcases hp : sock.poll s 0 SELECT_READ with ⟨pr, s1⟩
  rcases pr with e | b
  · simp [checkTcpConnection, checkTcpConnectionBody, hp]
  · cases b
    · simp [checkTcpConnection, checkTcpConnectionBody, hp]
    · rcases hk : sock.receiveBytes s1 1 MSG_PEEK with ⟨out, s2⟩
      cases out with
      | throws e =>
        simp [checkTcpConnection, checkTcpConnectionBody, hp, hk]
        intro _ out _ h1 h2
        subst h1
        rw [hk] at h2
        simp only [Prod.mk.injEq] at h2
        obtain ⟨rfl, rfl⟩ := h2
        simp
      | negative m =>
        simp [checkTcpConnection, checkTcpConnectionBody, hp, hk]
        intro _ out _ h1 h2
        subst h1
        rw [hk] at h2
        simp only [Prod.mk.injEq] at h2
        obtain ⟨rfl, rfl⟩ := h2
        simp
      | bytes data =>
        by_cases hd : data = []
        · subst hd
          simp [checkTcpConnection, checkTcpConnectionBody, hp, hk]
          intro _ out _ h1 h2
          subst h1
          rw [hk] at h2
          simp only [Prod.mk.injEq] at h2
          obtain ⟨rfl, rfl⟩ := h2
          simp
        · simp [checkTcpConnection, checkTcpConnectionBody, hp, hk, hd]
          intro _ out _ h1 h2
          subst h1
          rw [hk] at h2
          simp only [Prod.mk.injEq] at h2
          obtain ⟨rfl, rfl⟩ := h2
          simp [hd]

/-- Instances of C6: an idle channel, a channel with data, a closed channel, a
poll that fails and a peek that fails. -/
theorem checkTcpConnection_classification_witness :
    ((checkTcpConnection wireSocket ⟨[], false⟩).result = .ok () ∧
      (checkTcpConnection wireSocket ⟨[], false⟩).calls = [.poll 0 SELECT_READ]) ∧
    (checkTcpConnection wireSocket ⟨[5], false⟩).result = .ok () ∧
    (checkTcpConnection wireSocket ⟨[], true⟩).result
      = .error (.NetworkException "libfranka: server closed connection") ∧
    (checkTcpConnection resetSocket ()).result
      = .error (.NetworkException "libfranka: Connection reset by peer") ∧
    (checkTcpConnection scriptSocket [.throws (.TimeoutException "Timeout")]).result
      = .error (.NetworkException "libfranka: Timeout") :=
  ⟨(checkTcpConnection_classification wireSocket ⟨[], false⟩).1 _ rfl,
    ((checkTcpConnection_classification wireSocket ⟨[5], false⟩).2.1 _ _ _ rfl rfl).2.1
      (Or.inl ⟨[5], rfl, by decide⟩),
    ((checkTcpConnection_classification wireSocket ⟨[], true⟩).2.1 _ _ _ rfl rfl).2.2.1 rfl,
    ((checkTcpConnection_classification resetSocket ()).2.2.1 _ _ rfl).1,
    ((checkTcpConnection_classification scriptSocket
      [.throws (.TimeoutException "Timeout")]).2.1 _ _ _ rfl rfl).2.2.2 _ rfl⟩

/-- The in-memory socket keeps its state on `poll` and on a read with `MSG_PEEK`. -/
theorem wireSocket_peekKeepsState : PeekKeepsState wireSocket := by
  constructor
  · intro w t m
    rfl
  · intro w length
    simp only [wireSocket]
    split_ifs <;> rfl

/-- On a socket that keeps its state on `poll` and peek, `checkTcpConnection`
leaves the state as it found it. -/
theorem checkTcpConnection_socket {σ : Type} (sock : StreamSocket σ)
    (hk : PeekKeepsState sock) (s : σ) : (checkTcpConnection sock s).socket = s := by
  rw [(checkTcpConnection_fields sock s).1]
  have h1 := hk.1 s 0 SELECT_READ
  unfold checkTcpConnectionBody
  split
  · rename_i e s1 heq
    rw [heq] at h1
    exact h1
  · rename_i s1 heq
    rw [heq] at h1
    exact h1
  · rename_i s1 heq
    rw [heq] at h1
    simp only [] at h1
    subst h1
    have h2 := hk.2 s1 1
    split
    · rename_i e s2 heq2
      rw [heq2] at h2
      exact h2
    · rename_i m s2 heq2
      rw [heq2] at h2
      exact h2
    · rename_i data s2 heq2
      rw [heq2] at h2
      split_ifs <;> exact h2

/-- Claim C7.  On a socket whose `poll` and `MSG_PEEK` reads leave the receive
queue alone, `checkTcpConnection` leaves the state of the channel as it found
it, whether it returns or raises: the only calls it issues are the zero-wait
poll and a read of exactly 1 byte with `MSG_PEEK`.  Consequently
`tcpReceiveIntoBuffer` after any number of `checkTcpConnection` calls gives the
same result as without them. -/
theorem checkTcpConnection_consumes_nothing {σ : Type} (sock : StreamSocket σ)
    (hk : PeekKeepsState sock) (s : σ) :
    (checkTcpConnection sock s).socket = s ∧
    (∀ c, c ∈ (checkTcpConnection sock s).calls →
      c = .poll 0 SELECT_READ ∨ c = .receiveBytes 0 1 MSG_PEEK) ∧
    (∀ (n fuel : Nat) (buffer : Buffer) (N : Nat),
      tcpReceiveIntoBuffer sock fuel (checkTcpConnectionTimes sock n s) buffer N
        = tcpReceiveIntoBuffer sock fuel s buffer N) := by
  refine ⟨checkTcpConnection_socket sock hk s, ?_, ?_⟩
  · rw [(checkTcpConnection_fields sock s).2]
    unfold checkTcpConnectionBody
    intro c hc
    split at hc
    · simp at hc; exact Or.inl hc
    · simp at hc; exact Or.inl hc
    · split at hc
      · simpa using hc
      · simpa using hc
      · split_ifs at hc <;> simpa using hc
  · intro n fuel buffer N
    have key : ∀ (n : Nat) (s : σ), checkTcpConnectionTimes sock n s = s := by
      intro n
      induction n with
      | zero => intro s; rfl
      | succ n ih =>
        intro s
        unfold checkTcpConnectionTimes
        rw [checkTcpConnection_socket sock hk s]
        exact ih s
    rw [key n s]

/-- Instance of C7: two bytes queued, three liveness checks, then a read of two
bytes. -/
theorem checkTcpConnection_consumes_nothing_witness :
    (checkTcpConnection wireSocket ⟨[1, 2], false⟩).socket = ⟨[1, 2], false⟩ ∧
    (∀ c, c ∈ (checkTcpConnection wireSocket ⟨[1, 2], false⟩).calls →
      c = .poll 0 SELECT_READ ∨ c = .receiveBytes 0 1 MSG_PEEK) ∧
    (∀ (n fuel : Nat) (buffer : Buffer) (N : Nat),
      tcpReceiveIntoBuffer wireSocket fuel
          (checkTcpConnectionTimes wireSocket n ⟨[1, 2], false⟩) buffer N
        = tcpReceiveIntoBuffer wireSocket fuel ⟨[1, 2], false⟩ buffer N) :=
  checkTcpConnection_consumes_nothing wireSocket wireSocket_peekKeepsState ⟨[1, 2], false⟩

/-! ## Construction -/

/-- A timeout of up to `9223372036854775` ms is converted to microseconds
exactly. -/
theorem long_mul_exact (t : Int) (h1 : -9223372036854775 ≤ t) (h2 : t ≤ 9223372036854775) :
    long_mul 1000 t = 1000 * t := by
  unfold long_mul wrap_long
  split_ifs with h <;> omega

/-- Beyond that the product wraps: at the largest 64-bit count it is `-1000`. -/
theorem long_mul_wraps : long_mul 1000 9223372036854775807 = -1000 := by
  decide


/-- When no call fails, every call is issued, in order. -/
theorem runSteps_all_ok (env : SetupCall → Except PocoException Unit) (steps : List SetupCall)
    (h : ∀ c, c ∈ steps → env c = .ok ()) : runSteps env steps = (steps, none) := by
  induction steps with
  | nil => rfl
  | cons c cs ih =>
    unfold runSteps
    rw [h c (List.mem_cons_self c cs)]
    simp only []
    rw [ih (fun d hd => h d (List.mem_cons_of_mem c hd))]

/-- When the call at position `i` is the first to fail, the calls up to and
including it are issued, and its exception is the one that leaves the block. -/
theorem runSteps_first_failure (env : SetupCall → Except PocoException Unit)
    (steps : List SetupCall) :
    ∀ (i : Nat) (c : SetupCall) (e : PocoException), steps[i]? = some c →
      (∀ j d, j < i → steps[j]? = some d → env d = .ok ()) → env c = .error e →
      runSteps env steps = (steps.take (i + 1), some e) := by
  induction steps with
  | nil => intro i c e h; simp at h
  | cons a as ih =>
    intro i c e hi hbefore hfail
    cases i with
    | zero =>
      simp only [List.getElem?_cons_zero, Option.some.injEq] at hi
      subst hi
      unfold runSteps
      rw [hfail]
      simp
    | succ i =>
      simp only [List.getElem?_cons_succ] at hi
      have ha : env a = .ok () := hbefore 0 a (Nat.succ_pos i) (by simp)
      unfold runSteps
      rw [ha]
      simp only []
      rw [ih i c e hi (fun j d hj hd => hbefore (j + 1) d (by omega) (by simpa using hd)) hfail]
      simp

/-- Claim C8.  Construction is all-or-nothing with a single error kind.  When the
call at position `i` of the constructor is the first to fail, with a
`NetException`, a `TimeoutException` or any other Poco exception, the
constructor raises a `NetworkException`, exactly the calls up to and including
that one were issued, and no `Network` is produced.  When no call fails, all ten
calls were issued in source order and the `Network` is produced.  The time spans
passed are the 64-bit products `1000l * timeout`. -/
theorem constructor_all_or_nothing (env : SetupCall → Except PocoException Unit)
    (franka_address : String) (franka_port : Nat) (tcp_timeout udp_timeout : Int) :
    (∀ (i : Nat) (c : SetupCall) (e : PocoException),
      (Network.steps franka_address franka_port tcp_timeout udp_timeout)[i]? = some c →
      (∀ j d, j < i →
        (Network.steps franka_address franka_port tcp_timeout udp_timeout)[j]? = some d →
        env d = .ok ()) →
      env c = .error e →
      (Network.Network env franka_address franka_port tcp_timeout udp_timeout).result
        = .error (.NetworkException
            (match e with
              | .NetException t => "libfranka: FRANKA connection error: " ++ t
              | .TimeoutException _ => "libfranka: FRANKA connection timeout"
              | .Exception t => "libfranka: " ++ t)) ∧
      (Network.Network env franka_address franka_port tcp_timeout udp_timeout).calls
        = (Network.steps franka_address franka_port tcp_timeout udp_timeout).take (i + 1)) ∧
    ((∀ c, c ∈ Network.steps franka_address franka_port tcp_timeout udp_timeout →
        env c = .ok ()) →
      (Network.Network env franka_address franka_port tcp_timeout udp_timeout).result
        = .ok ⟨Network.steps franka_address franka_port tcp_timeout udp_timeout⟩ ∧
      (Network.Network env franka_address franka_port tcp_timeout udp_timeout).calls
        = [ .tcp_connect franka_address franka_port (long_mul 1000 tcp_timeout),
            .tcp_setBlocking true,
            .tcp_setSendTimeout (long_mul 1000 tcp_timeout),
            .tcp_setReceiveTimeout (long_mul 1000 tcp_timeout),
            .tcp_setKeepAlive true,
            .tcp_setOption IPPROTO_TCP TCP_KEEPIDLE 1,
            .tcp_setOption IPPROTO_TCP TCP_KEEPCNT 3,
            .tcp_setOption IPPROTO_TCP TCP_KEEPINTVL 1,
            .udp_setReceiveTimeout (long_mul 1000 udp_timeout),
            .udp_bind "0.0.0.0" 0 ]) := by
  constructor
  · intro i c e hi hbefore hfail
    have h := runSteps_first_failure env _ i c e hi hbefore hfail
    unfold Network.Network
    simp only [h]
    cases e <;> simp
  · intro hall
    have h := runSteps_all_ok env _ hall
    unfold Network.Network
    simp only [h]
    simp [Network.steps]

/-- Instances of C8: enabling keepalive times out; connecting is refused; a
socket option is rejected; nothing fails. -/
theorem constructor_all_or_nothing_witness :
    ((Network.Network (failAt (.tcp_setKeepAlive true) (.TimeoutException "Timeout"))
          "robot" 1337 500 100).result
        = .error (.NetworkException "libfranka: FRANKA connection timeout") ∧
      (Network.Network (failAt (.tcp_setKeepAlive true) (.TimeoutException "Timeout"))
          "robot" 1337 500 100).calls
        = (Network.steps "robot" 1337 500 100).take (4 + 1)) ∧
    ((Network.Network (failAt (.tcp_connect "robot" 1337 500000) (.NetException "refused"))
          "robot" 1337 500 100).result
        = .error (.NetworkException "libfranka: FRANKA connection error: refused") ∧
      (Network.Network (failAt (.tcp_connect "robot" 1337 500000) (.NetException "refused"))
          "robot" 1337 500 100).calls
        = (Network.steps "robot" 1337 500 100).take (0 + 1)) ∧
    ((Network.Network (failAt (.tcp_setOption IPPROTO_TCP TCP_KEEPCNT 3) (.Exception "bad"))
          "robot" 1337 500 100).result
        = .error (.NetworkException "libfranka: bad") ∧
      (Network.Network (failAt (.tcp_setOption IPPROTO_TCP TCP_KEEPCNT 3) (.Exception "bad"))
          "robot" 1337 500 100).calls
        = (Network.steps "robot" 1337 500 100).take (6 + 1)) ∧
    ((Network.Network allSucceed "robot" 1337 500 100).result
        = .ok ⟨Network.steps "robot" 1337 500 100⟩ ∧
      (Network.Network allSucceed "robot" 1337 500 100).calls
        = [ .tcp_connect "robot" 1337 (long_mul 1000 500),
            .tcp_setBlocking true,
            .tcp_setSendTimeout (long_mul 1000 500),
            .tcp_setReceiveTimeout (long_mul 1000 500),
            .tcp_setKeepAlive true,
            .tcp_setOption IPPROTO_TCP TCP_KEEPIDLE 1,
            .tcp_setOption IPPROTO_TCP TCP_KEEPCNT 3,
            .tcp_setOption IPPROTO_TCP TCP_KEEPINTVL 1,
            .udp_setReceiveTimeout (long_mul 1000 100),
            .udp_bind "0.0.0.0" 0 ]) :=
  ⟨(constructor_all_or_nothing
        (failAt (.tcp_setKeepAlive true) (.TimeoutException "Timeout")) "robot" 1337 500 100).1
      4 (.tcp_setKeepAlive true) (.TimeoutException "Timeout") rfl
      (by
        intro j d hj hd
        interval_cases j <;> simp [Network.steps] at hd <;> subst hd <;> rfl)
      rfl,
    (constructor_all_or_nothing
        (failAt (.tcp_connect "robot" 1337 500000) (.NetException "refused")) "robot" 1337 500 100).1
      0 (.tcp_connect "robot" 1337 500000) (.NetException "refused") rfl
      (by
        intro j d hj hd
        omega)
      rfl,
    (constructor_all_or_nothing
        (failAt (.tcp_setOption IPPROTO_TCP TCP_KEEPCNT 3) (.Exception "bad")) "robot" 1337 500 100).1
      6 (.tcp_setOption IPPROTO_TCP TCP_KEEPCNT 3) (.Exception "bad") rfl
      (by
        intro j d hj hd
        interval_cases j <;> simp [Network.steps] at hd <;> subst hd <;> rfl)
      rfl,
    (constructor_all_or_nothing allSucceed "robot" 1337 500 100).2 (fun _ _ => rfl)⟩

/-! ## The length passed to the read, and termination -/

/-- A count that fits an `int` survives the narrowing. -/
theorem static_cast_int_small (x : Nat) (h : x ≤ INT_MAX) :
    static_cast_int (x % SIZE_MOD) = (x : Int) := by
  unfold INT_MAX at h
  have h1 : x % SIZE_MOD = x := Nat.mod_eq_of_lt (by unfold SIZE_MOD; omega)
  rw [h1]
  unfold static_cast_int
  have h2 : x % 2 ^ 32 = x := Nat.mod_eq_of_lt (by omega)
  rw [h2]
  split_ifs with h3
  · rfl
  · omega

/-- Claim C9, evaluated where it fails: with `read_size = 2^31` the first read is
issued at offset 0 with length `-2^31`, and with `read_size = 2^32` with length
0, whatever the socket; the remaining count is `2^31`, respectively `2^32`. -/
theorem tcpReceiveIntoBuffer_length_narrowed {σ : Type} (sock : StreamSocket σ) (fuel : Nat)
    (s : σ) (buffer : Buffer) :
    (tcpReceiveIntoBuffer sock (fuel + 1) s buffer 2147483648).calls.head?
      = some (.receiveBytes 0 (-2147483648) 0) ∧
    (tcpReceiveIntoBuffer sock (fuel + 1) s buffer 4294967296).calls.head?
      = some (.receiveBytes 0 0 0) := by
  have h1 : static_cast_int ((2147483648 - 0) % SIZE_MOD) = -2147483648 := by decide
  have h2 : static_cast_int ((4294967296 - 0) % SIZE_MOD) = 0 := by decide
  constructor
  · rw [(tcpReceiveIntoBuffer_fields sock (fuel + 1) s buffer 2147483648).2.2.1]
    rcases h : sock.receiveBytes s (static_cast_int ((2147483648 - 0) % SIZE_MOD)) 0
      with ⟨out, s1⟩
    cases out with
    | throws e => rw [receiveLoop_throws sock _ fuel s s1 0 buffer e (by decide) h, h1]; rfl
    | negative m => rw [receiveLoop_negative sock _ fuel s s1 0 buffer m (by decide) h, h1]; rfl
    | bytes data => rw [receiveLoop_bytes sock _ fuel s s1 0 buffer data (by decide) h, h1]; rfl
  · rw [(tcpReceiveIntoBuffer_fields sock (fuel + 1) s buffer 4294967296).2.2.1]
    rcases h : sock.receiveBytes s (static_cast_int ((4294967296 - 0) % SIZE_MOD)) 0
      with ⟨out, s1⟩
    cases out with
    | throws e => rw [receiveLoop_throws sock _ fuel s s1 0 buffer e (by decide) h, h2]; rfl
    | negative m => rw [receiveLoop_negative sock _ fuel s s1 0 buffer m (by decide) h, h2]; rfl
    | bytes data => rw [receiveLoop_bytes sock _ fuel s s1 0 buffer data (by decide) h, h2]; rfl

/-- On a socket that makes progress, and for a size that fits an `int`, the loop
started at `bytes_read = b` leaves within `read_size - b` reads; each read is
issued at the current `bytes_read` for the remaining count, and `bytes_read`
grows from read to read without passing `read_size`. -/
theorem receiveLoop_progress {σ : Type} (sock : StreamSocket σ) (hp : MakesProgress sock)
    (N : Nat) (hN : N ≤ INT_MAX) (fuel : Nat) :
    ∀ (s : σ) (b : Nat) (buffer : Buffer), b ≤ N → N - b ≤ fuel →
      (receiveLoop sock N fuel s b buffer).status ≠ .running ∧
      (receiveLoop sock N fuel s b buffer).calls.length ≤ N - b ∧
      ((receiveLoop sock N fuel s b buffer).calls.map TcpCall.dest).Pairwise (· < ·) ∧
      (∀ c, c ∈ (receiveLoop sock N fuel s b buffer).calls →
        b ≤ c.dest ∧ c.dest < N ∧ c = .receiveBytes c.dest ((N : Int) - (c.dest : Int)) 0 ∧
        c.dest ≤ (receiveLoop sock N fuel s b buffer).bytes_read) ∧
      b ≤ (receiveLoop sock N fuel s b buffer).bytes_read ∧
      (receiveLoop sock N fuel s b buffer).bytes_read ≤ N := by
  induction fuel with
  | zero =>
    intro s b buffer hb hfuel
    rw [receiveLoop_done sock N 0 s b buffer (by omega)]
    simp [hb]
  | succ fuel ih =>
    intro s b buffer hb hfuel
    by_cases hlt : b < N
    · have hlen : static_cast_int ((N - b) % SIZE_MOD) = ((N - b : Nat) : Int) :=
        static_cast_int_small (N - b) (by omega)
      have hlen2 : ((N - b : Nat) : Int) = (N : Int) - (b : Int) := by omega
      rcases h : sock.receiveBytes s (static_cast_int ((N - b) % SIZE_MOD)) 0 with ⟨out, s1⟩
      cases out with
      | throws e =>
        rw [receiveLoop_throws sock N fuel s s1 b buffer e hlt h, hlen, hlen2]
        simp [TcpCall.dest, hlt]
        omega
      | negative m =>
        rw [receiveLoop_negative sock N fuel s s1 b buffer m hlt h, hlen, hlen2]
        simp [TcpCall.dest, hlt]
        omega
      | bytes data =>
        have hpr := hp s _ data s1 (by rw [hlen]; omega) h
        rw [hlen] at hpr
        have hle : b + data.length ≤ N := by omega
        have hmod : (b + data.length) % SIZE_MOD = b + data.length :=
          Nat.mod_eq_of_lt (by unfold SIZE_MOD; unfold INT_MAX at hN; omega)
        rw [receiveLoop_bytes sock N fuel s s1 b buffer data hlt h, hmod, hlen, hlen2]
        dsimp only
        obtain ⟨i1, i2, i3, i4, i5, i6⟩ :=
          ih s1 (b + data.length) (store buffer b data) hle (by omega)
        refine ⟨i1, ?_, ?_, ?_, by omega, i6⟩
        · simp only [List.length_cons]
          omega
        · simp only [List.map_cons, List.pairwise_cons]
          refine ⟨?_, i3⟩
          intro d hd
          obtain ⟨c, hc, rfl⟩ := List.mem_map.mp hd
          have := (i4 c hc).1
          show b < c.dest
          omega
        · intro c hc
          simp only [List.mem_cons] at hc
          rcases hc with rfl | hc
          · exact ⟨le_refl b, hlt, rfl, by show b ≤ _; omega⟩
          · obtain ⟨j1, j2, j3, j4⟩ := i4 c hc
            exact ⟨by omega, j2, j3, j4⟩
    · rw [receiveLoop_done sock N (fuel + 1) s b buffer hlt]
      simp [hb]

/-- The in-memory socket makes progress whenever it returns a count for a
positive length. -/
theorem wireSocket_makesProgress_open (w : Wire) (length : Int) (data : List Byte) (w1 : Wire)
    (hopen : w.closed = false) (hpos : 0 < length)
    (h : wireSocket.receiveBytes w length 0 = (.bytes data, w1)) :
    1 ≤ data.length ∧ (data.length : Int) ≤ length := by
  simp only [wireSocket] at h
  split_ifs at h with h1 h2 h3
  · simp [hopen] at h2
  · simp at h
  · simp [MSG_PEEK] at h3
  · simp only [Prod.mk.injEq, ReadOutcome.bytes.injEq] at h
    rw [← h.1]
    simp only [List.length_take]
    have hq : 0 < w.queue.length := by
      cases hq : w.queue with
      | nil => simp [hq] at h1
      | cons a as => simp
    omega

/-- The socket of a peer that stays connected makes progress. -/
theorem queueSocket_makesProgress : MakesProgress queueSocket := by
  intro q length data q1 hpos h
  simp only [queueSocket, Prod.mk.injEq] at h
  exact wireSocket_makesProgress_open ⟨q, false⟩ length data
    (wireSocket.receiveBytes ⟨q, false⟩ length 0).2 rfl hpos (Prod.ext h.1 rfl)

/-- The socket of a peer that stays connected honours the length it is asked
for. -/
theorem queueSocket_honoursLength : HonoursLength queueSocket := by
  intro q length data q1 hlen h
  simp only [queueSocket, Prod.mk.injEq] at h
  exact wireSocket_honoursLength ⟨q, false⟩ length data
    (wireSocket.receiveBytes ⟨q, false⟩ length 0).2 hlen (Prod.ext h.1 rfl)

/-! ## Exact-size receive -/

/-- What holds of the exact-size receive on every run.  For every requested size
`N` (a `size_t`), every socket that honours the length it is asked for, and
every number of reads carried out, `tcpReceiveIntoBuffer(buffer, N)` is in one
of three states.  It has returned normally with `bytes_read = N`, exactly `N`
bytes delivered and positions `0..N-1` of the buffer holding them in arrival
order.  Or it has raised a `NetworkException` or a `ProtocolException`.  Or it
is still reading: every read so far returned a count and fewer than `N` bytes
have been accumulated.  So a normal return with fewer than `N` bytes does not
occur.  When moreover every read that returns a count returns at least one byte
and `N ≤ 2^31 - 1`, the call is in one of the first two states after `N` reads. -/
theorem tcpReceiveIntoBuffer_exact_or_error {σ : Type} (sock : StreamSocket σ)
    (hc : HonoursLength sock) (fuel : Nat) (s : σ) (buffer : Buffer) (N : Nat)
    (_hpos : 0 < N) (hN : N < SIZE_MOD) :
    (((tcpReceiveIntoBuffer sock fuel s buffer N).status = .returned ∧
        (tcpReceiveIntoBuffer sock fuel s buffer N).bytes_read = N ∧
        (tcpReceiveIntoBuffer sock fuel s buffer N).delivered.length = N ∧
        ∀ i, i < N → (tcpReceiveIntoBuffer sock fuel s buffer N).delivered[i]?
          = some ((tcpReceiveIntoBuffer sock fuel s buffer N).buffer i)) ∨
      (∃ e, (tcpReceiveIntoBuffer sock fuel s buffer N).status = .threw e ∧
        (e.isNetworkException = true ∨ e.isProtocolException = true)) ∨
      ((tcpReceiveIntoBuffer sock fuel s buffer N).status = .running ∧
        (tcpReceiveIntoBuffer sock fuel s buffer N).calls.length = fuel ∧
        (tcpReceiveIntoBuffer sock fuel s buffer N).bytes_read < N)) ∧
    (MakesProgress sock → N ≤ INT_MAX → N ≤ fuel →
      (tcpReceiveIntoBuffer sock fuel s buffer N).status ≠ .running) := by
  refine ⟨?_, ?_⟩
  swap
  · intro hp hint hfuel hrun
    have hst := tcpReceiveIntoBuffer_status sock fuel s buffer N
    have i1 := (receiveLoop_progress sock hp N hint fuel s 0 buffer (Nat.zero_le N)
      (by omega)).1
    rw [hrun] at hst
    rcases receiveLoop_status sock N fuel s 0 buffer with h | h | ⟨e, h⟩ | h
    · rw [h] at hst; simp at hst
    · exact i1 h
    · rw [h] at hst
      cases e with
      | TimeoutException t =>
        simp only [] at hst
        split_ifs at hst
      | NetException t => simp at hst
      | Exception t => simp at hst
    · rw [h] at hst; simp at hst
  obtain ⟨f1, f2, f3, f4, -⟩ := tcpReceiveIntoBuffer_fields sock fuel s buffer N
  have hst := tcpReceiveIntoBuffer_status sock fuel s buffer N
  obtain ⟨i1, -, i3, i4⟩ := receiveLoop_invariant sock hc N hN fuel s 0 buffer (Nat.zero_le N)
  rw [f1, f2, f3, f4]
  rcases receiveLoop_status sock N fuel s 0 buffer with h | h | ⟨e, h⟩ | h
  · left
    rw [h] at hst
    have hb := i3 h
    have hlen : (receiveLoop sock N fuel s 0 buffer).delivered.length = N := by omega
    refine ⟨hst, hb, hlen, ?_⟩
    intro i hi
    rw [i4]
    exact store_get buffer _ i (by omega)
  · right; right
    have hrun := receiveLoop_running sock N fuel s 0 buffer h
    rw [h] at hst
    exact ⟨hst, hrun.1, hrun.2⟩
  · right; left
    rw [h] at hst
    cases e with
    | TimeoutException t =>
      simp only [] at hst
      split_ifs at hst with hz
      · exact ⟨_, hst, Or.inr rfl⟩
      · exact ⟨_, hst, Or.inl rfl⟩
    | NetException t => exact ⟨_, hst, Or.inl rfl⟩
    | Exception t => exact ⟨_, hst, Or.inl rfl⟩
  · right; left
    rw [h] at hst
    exact ⟨_, hst, Or.inl rfl⟩

/-- An instance: three bytes queued, three requested, three reads allowed. -/
theorem tcpReceiveIntoBuffer_exact_or_error_witness :
    (((tcpReceiveIntoBuffer queueSocket 3 [7, 8, 9] zeroBuffer 3).status = .returned ∧
        (tcpReceiveIntoBuffer queueSocket 3 [7, 8, 9] zeroBuffer 3).bytes_read = 3 ∧
        (tcpReceiveIntoBuffer queueSocket 3 [7, 8, 9] zeroBuffer 3).delivered.length = 3 ∧
        ∀ i, i < 3 → (tcpReceiveIntoBuffer queueSocket 3 [7, 8, 9] zeroBuffer 3).delivered[i]?
          = some ((tcpReceiveIntoBuffer queueSocket 3 [7, 8, 9] zeroBuffer 3).buffer i)) ∨
      (∃ e, (tcpReceiveIntoBuffer queueSocket 3 [7, 8, 9] zeroBuffer 3).status = .threw e ∧
        (e.isNetworkException = true ∨ e.isProtocolException = true)) ∨
      ((tcpReceiveIntoBuffer queueSocket 3 [7, 8, 9] zeroBuffer 3).status = .running ∧
        (tcpReceiveIntoBuffer queueSocket 3 [7, 8, 9] zeroBuffer 3).calls.length = 3 ∧
        (tcpReceiveIntoBuffer queueSocket 3 [7, 8, 9] zeroBuffer 3).bytes_read < 3)) ∧
    (tcpReceiveIntoBuffer queueSocket 3 [7, 8, 9] zeroBuffer 3).status ≠ .running :=
  ⟨(tcpReceiveIntoBuffer_exact_or_error queueSocket queueSocket_honoursLength 3 [7, 8, 9]
      zeroBuffer 3 (by decide) (by decide)).1,
    (tcpReceiveIntoBuffer_exact_or_error queueSocket queueSocket_honoursLength 3 [7, 8, 9]
      zeroBuffer 3 (by decide) (by decide)).2 queueSocket_makesProgress (by decide) (by decide)⟩

end Franka
